import Mathlib

/-!
Shallow embedding of the orbit-server core (identity reconciliation,
capability-based authorization, gravity recalculation, upvote toggling and
the retention sweep), translated from the Python/Django source under
`src/identity` and `src/workspace`.

Identifiers (users, ghosts, boards, notes) are modelled as natural numbers,
timestamps as integers counted in days, admin secrets and HTTP data as
strings, and note positions as rationals.  Django querysets become explicit
lists carried in a `Store` record; each view or signal handler becomes a
function from the store (and request data) to a new store plus a response.
-/

namespace Orbit

/-- `identity.models.AnonymousProfile`: ghost identity with optional linked
account and the 30+7-day retention tracking fields. -/
structure Ghost where
  ghost_id : Nat
  user : Option Nat
  created_at : Int
  is_soft_deleted : Bool
  soft_deleted_at : Option Int
  deriving DecidableEq, Repr

/-- `workspace.models.Board`: board with creator ghost, admin secret and
retention tracking fields. -/
structure Board where
  id : Nat
  title : String
  creator_ghost : Nat
  is_public : Bool
  secret_admin_token : String
  created_at : Int
  is_soft_deleted : Bool
  soft_deleted_at : Option Int
  deriving DecidableEq, Repr

/-- `workspace.models.Note`: note on a board with 2D position. -/
structure Note where
  id : Nat
  board : Nat
  creator_ghost : Nat
  content : String
  colour : String
  position_x : Rat
  position_y : Rat
  is_anonymous_to_public : Bool
  deriving DecidableEq, Repr

/-- `workspace.models.Upvote`: a (note, ghost) pair, unique per pair. -/
structure Upvote where
  note : Nat
  ghost : Nat
  deriving DecidableEq, Repr

/-- The relational store backing the Django ORM queries. -/
structure Store where
  ghosts : List Ghost
  boards : List Board
  notes : List Note
  upvotes : List Upvote
  deriving DecidableEq, Repr

/-- `AnonymousProfile.objects.filter(ghost_id=gid).first()` — FK dereference. -/
def findGhost (ghosts : List Ghost) (gid : Nat) : Option Ghost :=
  ghosts.find? (fun g => g.ghost_id == gid)

/-- `user.ghost_profile`: the (at most one) ghost whose `user` field is `u`. -/
def findUserGhost (ghosts : List Ghost) (u : Nat) : Option Ghost :=
  ghosts.find? (fun g => g.user == some u)

/-- `obj.creator_ghost.user == request.user` for a ghost id `gid`. -/
def ghostUserIs (ghosts : List Ghost) (gid : Nat) (u : Nat) : Bool :=
  match findGhost ghosts gid with
  | some g => g.user == some u
  | none => false

/-! ## Authorization (`identity/permissions.py`, `IsOwnerOrAdminToken`) -/

/-- The requester context: HTTP method, optional ghost identity attached by
the middleware, optional authenticated account, the optional
`X-Admin-Token` header value, and the keys of the request body. -/
structure PermRequest where
  method : String
  ghost : Option Nat
  user : Option Nat
  admin_token : Option String
  data_fields : List String
  deriving Repr

/-- The object handed to `has_object_permission`: a `Board`, or a `Note`
together with its parent `Board` record (`obj.board`). -/
inductive PermObj where
  | board (b : Board)
  | note (n : Note) (b : Board)
  deriving Repr

/-- `rest_framework.permissions.SAFE_METHODS`. -/
def SAFE_METHODS : List String := ["GET", "HEAD", "OPTIONS"]

/-- Python's `str.lower()`, modelled characterwise on the string data. -/
def strLower (s : String) : String := String.mk (s.data.map Char.toLower)

/-- The `has_admin_rights` computation of
`IsOwnerOrAdminToken.has_object_permission`: a presented `X-Admin-Token`
that is truthy and case-insensitively equal to the board secret, or an
authenticated account owning the board creator ghost.  (In Python an empty
header string is falsy, hence the nonemptiness test.) -/
def has_admin_rights (ghosts : List Ghost) (req : PermRequest) (target_board : Board) : Bool :=
  (match req.admin_token with
   | some t => decide (t ≠ "") && (strLower target_board.secret_admin_token == strLower t)
   | none => false)
  ||
  (match req.user with
   | some u => ghostUserIs ghosts target_board.creator_ghost u
   | none => false)

/-- `IsOwnerOrAdminToken.has_object_permission`: safe methods pass; note
authors (by ghost or by linked account) pass; board admins get full board
access but, on someone else's note, only a PATCH whose nonempty field set
is a subset of `{position_x, position_y}`. -/
def has_object_permission (ghosts : List Ghost) (req : PermRequest) (obj : PermObj) : Bool :=
  if req.method ∈ SAFE_METHODS then true
  else
    match obj with
    | .board b => has_admin_rights ghosts req b
    | .note n b =>
      if (match req.ghost with | some g => n.creator_ghost == g | none => false) then true
      else if (match req.user with | some u => ghostUserIs ghosts n.creator_ghost u | none => false) then
        true
      else if has_admin_rights ghosts req b then
        (if req.method == "PATCH" then
          let allowed_fields : List String := ["position_x", "position_y"]
          let actual_fields := req.data_fields
          !actual_fields.isEmpty && actual_fields.all (fun f => f ∈ allowed_fields)
        else false)
      else false

/-! ## Gravity and broadcasts (`workspace/signals.py`) -/

/-- Broadcast discriminant tags used by `workspace/signals.py`. -/
inductive EventType where
  | NOTE_CREATED
  | NOTE_UPDATED
  | NOTE_DELETED
  deriving DecidableEq, Repr

/-- One normalized event published to a board's subscriber group. -/
structure Event where
  board : Nat
  type : EventType
  payload : Note
  deriving DecidableEq, Repr

/-- `note_saved` receiver: broadcast the full current state of the note as
`NOTE_CREATED` on creation, `NOTE_UPDATED` otherwise. -/
def note_saved (n : Note) (created : Bool) : Event :=
  ⟨n.board, if created then .NOTE_CREATED else .NOTE_UPDATED, n⟩

/-- `GRAVITY_FACTOR = 0.95` from the `upvote_added` receiver. -/
def GRAVITY_FACTOR : Rat := 0.95

/-- The position rescaling performed by `upvote_added`. -/
def applyGravity (n : Note) : Note :=
  { n with position_x := n.position_x * GRAVITY_FACTOR,
           position_y := n.position_y * GRAVITY_FACTOR }

/-- `upvote_added` receiver: on a newly created upvote, pull the note 5%
closer to the origin and save it, which re-broadcasts it (`created = false`
on that save).  Returns the new note state and the emitted events. -/
def upvote_added (created : Bool) (n : Note) : Note × List Event :=
  if created then
    let n2 := applyGravity n
    (n2, [note_saved n2 false])
  else (n, [])

/-- `upvote_removed` receiver: just re-save the note, broadcasting its
current (unchanged) state. -/
def upvote_removed (n : Note) : Note × List Event :=
  (n, [note_saved n false])

/-! ## OTP verification and ghost linking (`identity/views.py`, `VerifyOTPView`) -/

/-- `AnonymousProfile.objects.get_or_create(ghost_id=gid)`: return the
existing profile or materialize a fresh unlinked one created `now`. -/
def getOrCreateGhost (ghosts : List Ghost) (gid : Nat) (now : Int) : Ghost × List Ghost :=
  match findGhost ghosts gid with
  | some g => (g, ghosts)
  | none =>
    let g : Ghost := ⟨gid, none, now, false, none⟩
    (g, ghosts ++ [g])

/-- `has_anonymous_data` in `VerifyOTPView.post`: the ghost authored some
board or some note. -/
def hasAnonymousData (s : Store) (gid : Nat) : Bool :=
  s.boards.any (fun b => b.creator_ghost == gid) || s.notes.any (fun n => n.creator_ghost == gid)

/-- `ghost.user = user; ghost.save()`: link the ghost with id `gid` to
account `u` in the store. -/
def linkGhost (ghosts : List Ghost) (gid : Nat) (u : Nat) : List Ghost :=
  ghosts.map (fun g => if g.ghost_id == gid then { g with user := some u } else g)

/-- The response body of `VerifyOTPView.post` (tokens are always issued on a
valid code; `anonymous_boards` lists the board ids at risk on conflict). -/
structure VerifyResponse where
  has_conflict : Bool
  anonymous_boards : List Nat
  tokens_issued : Bool
  user_ghost_id : Nat
  deriving DecidableEq, Repr

/-- `VerifyOTPView.post` after the verification code has been accepted and
the account for the email resolved to `userId`: get-or-create the presented
ghost, detect a merge conflict, link only when no conflict exists, and
always issue session credentials. -/
def verify_otp (s : Store) (now : Int) (userId : Nat) (gid : Nat) : Store × VerifyResponse :=
  let gg := getOrCreateGhost s.ghosts gid now
  let ghost0 := gg.1
  let ghosts0 := gg.2
  let has_anonymous_data := hasAnonymousData s ghost0.ghost_id
  let cg :=
    match findUserGhost ghosts0 userId with
    | some pg =>
      if pg.ghost_id ≠ ghost0.ghost_id then
        -- returning user with a different ghost
        (if has_anonymous_data then (true, ghost0)
         -- no data on current ghost, just switch to the old one
         else (false, pg))
      else (has_anonymous_data && ghost0.user == none, ghost0)
    | none => (has_anonymous_data && ghost0.user == none, ghost0)
  let conflict_exists := cg.1
  let ghost := cg.2
  -- link ghost to user ONLY if there is no conflict
  let ghosts1 := if conflict_exists then ghosts0 else linkGhost ghosts0 ghost.ghost_id userId
  let anonymous_boards :=
    if conflict_exists then
      (s.boards.filter (fun b => b.creator_ghost == ghost.ghost_id)).map (fun b => b.id)
    else []
  let user_ghost_id :=
    match findUserGhost ghosts1 userId with
    | some g => g.ghost_id
    | none => ghost.ghost_id
  ({ s with ghosts := ghosts1 },
   ⟨conflict_exists, anonymous_boards, true, user_ghost_id⟩)

/-! ## Explicit migration (`identity/views.py`, `MigrateGhostDataView`) -/

/-- Outcome of `MigrateGhostDataView.post`. -/
inductive MigrateResult where
  | badRequest
  | notFound
  | ok
  deriving DecidableEq, Repr

/-- Target resolution of `MigrateGhostDataView.post`: the account's linked
ghost (`request.user.ghost_profile`) if one exists, else the source. -/
def migrateTarget (s : Store) (userId : Nat) (source_ghost : Ghost) : Ghost :=
  match findUserGhost s.ghosts userId with
  | some pg => pg
  | none => source_ghost

/-- `MigrateGhostDataView.post` for authenticated account `userId`: look up
the source ghost (404 if absent), resolve the target as the account's
linked ghost or, if none, the source itself; when source ≠ target reassign
every board, note and upvote row from source to target; finally link the
target ghost to the account. -/
def migrate (s : Store) (userId : Nat) (source_ghost_id : Option Nat) : Store × MigrateResult :=
  match source_ghost_id with
  | none => (s, .badRequest)
  | some sg =>
    match findGhost s.ghosts sg with
    | none => (s, .notFound)
    | some source_ghost =>
      let target_ghost := migrateTarget s userId source_ghost
      let s1 :=
        if source_ghost.ghost_id ≠ target_ghost.ghost_id then
          { s with
            boards := s.boards.map (fun b =>
              if b.creator_ghost == source_ghost.ghost_id then
                { b with creator_ghost := target_ghost.ghost_id } else b),
            notes := s.notes.map (fun n =>
              if n.creator_ghost == source_ghost.ghost_id then
                { n with creator_ghost := target_ghost.ghost_id } else n),
            upvotes := s.upvotes.map (fun u =>
              if u.ghost == source_ghost.ghost_id then
                { u with ghost := target_ghost.ghost_id } else u) }
        else s
      let s2 := { s1 with ghosts := linkGhost s1.ghosts target_ghost.ghost_id userId }
      (s2, .ok)

/-! ## Upvote toggling (`workspace/views/notes.py`, `NoteViewSet`) -/

/-- `workspace.models.BoardInvite`: a (board, email) pair granting access,
unique per pair. -/
structure BoardInvite where
  board : Nat
  email : String
  deriving DecidableEq, Repr

/-- The request context read by `NoteViewSet.get_queryset` and
`toggle_upvote`: the optional ghost attached by the middleware, the
optional authenticated account (its id together with its email, which the
invite clause matches on), and the optional `X-Admin-Token` header. -/
structure NoteRequest where
  ghost : Option Nat
  user : Option (Nat × String)
  admin_token : Option String
  deriving Repr

/-- `Board.objects` lookup by primary key — the `board` FK dereference of a
note. -/
def findBoard (boards : List Board) (bid : Nat) : Option Board :=
  boards.find? (fun b => b.id == bid)

/-- The row filter of `NoteViewSet.get_queryset`: the note's board is not
soft-deleted, and is public, or created by the requester's ghost, or owned
by the requester's authenticated account (directly or through an invite by
email), or matched by a truthy `X-Admin-Token` (compared exactly here,
unlike the permission check). -/
def note_visible (ghosts : List Ghost) (boards : List Board) (invites : List BoardInvite)
    (req : NoteRequest) (n : Note) : Bool :=
  match findBoard boards n.board with
  | none => false
  | some b =>
    !b.is_soft_deleted &&
    (b.is_public
     || (match req.ghost with | some g => b.creator_ghost == g | none => false)
     || (match req.user with
         | some u => ghostUserIs ghosts b.creator_ghost u.1
             || invites.any (fun i => i.board == b.id && i.email == u.2)
         | none => false)
     || (match req.admin_token with
         | some t => decide (t ≠ "") && (b.secret_admin_token == t)
         | none => false))

/-- `NoteViewSet.get_queryset` (without the optional `board` query-param
narrowing, which a detail action does not pass). -/
def note_queryset (s : Store) (invites : List BoardInvite) (req : NoteRequest) : List Note :=
  s.notes.filter (note_visible s.ghosts s.boards invites req)

/-- The action string reported by `toggle_upvote`, or its error responses. -/
inductive ToggleResult where
  | notFound
  | badRequest
  | forbidden
  | upvoted (upvotes : Nat)
  | unvoted (upvotes : Nat)
  deriving DecidableEq, Repr

/-- `Note.upvote_count`: number of upvote rows for the note. -/
def upvoteCount (upvotes : List Upvote) (noteId : Nat) : Nat :=
  (upvotes.filter (fun u => u.note == noteId)).length

/-- `NoteViewSet.toggle_upvote`: `self.get_object()` resolves the pk inside
the filtered queryset of `get_queryset`, so a note whose board is
soft-deleted or not accessible to the requester is 404 NotFound; then 400
without a ghost context, 403 on the author's own note; otherwise
`get_or_create` the (note, ghost) upvote row — delete it and report
"unvoted" if it existed, else create it, apply the gravity side effect to
the note (via the `upvote_added` signal) and report "upvoted".  The
reported count is read after the mutation. -/
def toggle_upvote (s : Store) (invites : List BoardInvite) (req : NoteRequest) (noteId : Nat) :
    Store × ToggleResult :=
  match (note_queryset s invites req).find? (fun n => n.id == noteId) with
  | none => (s, .notFound)
  | some note =>
    match req.ghost with
    | none => (s, .badRequest)
    | some g =>
      if note.creator_ghost == g then (s, .forbidden)
      else
        match s.upvotes.find? (fun u => u.note == noteId && u.ghost == g) with
        | some _ =>
          let upvotes1 := s.upvotes.eraseP (fun u => u.note == noteId && u.ghost == g)
          ({ s with upvotes := upvotes1 }, .unvoted (upvoteCount upvotes1 noteId))
        | none =>
          let upvotes1 := s.upvotes ++ [⟨noteId, g⟩]
          -- the post_save signal applies gravity to the note and re-saves it
          let notes1 := s.notes.map (fun n => if n.id == noteId then applyGravity n else n)
          ({ s with upvotes := upvotes1, notes := notes1 }, .upvoted (upvoteCount upvotes1 noteId))

/-! ## Retention sweep (`identity/management/commands/purge_expired_data.py`)

Timestamps are integers counted in days; `now - 30` and `now - 7` play the
roles of `thirty_days_ago` and `seven_days_ago`.  Django cascade deletion
(`on_delete=CASCADE`) is part of `.delete()`: hard-deleting ghost profiles
also deletes their boards, notes and upvotes, and hard-deleting boards also
deletes their notes (and the upvotes of those notes). -/

/-- Track A step 1: soft-delete profiles older than 30 days that are not
yet soft-deleted (no account-link filter in the source). -/
def ghostSoftStep (now : Int) (g : Ghost) : Ghost :=
  if g.created_at < now - 30 && !g.is_soft_deleted then
    { g with is_soft_deleted := true, soft_deleted_at := some now }
  else g

/-- Track A step 2 eligibility: soft-deleted more than 7 days ago. -/
def ghostHardEligible (now : Int) (g : Ghost) : Bool :=
  g.is_soft_deleted &&
    (match g.soft_deleted_at with
     | some ts => decide (ts < now - 7)
     | none => false)

/-- Track B step 1: soft-delete boards older than 30 days that are not yet
soft-deleted and whose creator ghost has no linked account. -/
def boardSoftStep (ghosts : List Ghost) (now : Int) (b : Board) : Board :=
  if b.created_at < now - 30 && !b.is_soft_deleted &&
      (match findGhost ghosts b.creator_ghost with
       | some g => g.user == none
       | none => false) then
    { b with is_soft_deleted := true, soft_deleted_at := some now }
  else b

/-- Track B step 2 eligibility: soft-deleted more than 7 days ago. -/
def boardHardEligible (now : Int) (b : Board) : Bool :=
  b.is_soft_deleted &&
    (match b.soft_deleted_at with
     | some ts => decide (ts < now - 7)
     | none => false)

/-- One run of the `purge_expired_data` command at time `now` is the
composition of the component queries below, in source order: soft-delete
expired profiles, hard-delete long-soft-deleted profiles (cascading to
their boards, notes and upvotes), soft-delete expired unclaimed boards,
hard-delete long-soft-deleted boards (cascading to their notes and
upvotes).  Track A survivors. -/
def sweepGhosts (now : Int) (ghosts : List Ghost) : List Ghost :=
  (ghosts.map (ghostSoftStep now)).filter (fun g => !ghostHardEligible now g)

/-- Ids of the ghost profiles hard-deleted by Track A. -/
def deadGhostIds (now : Int) (ghosts : List Ghost) : List Nat :=
  ((ghosts.map (ghostSoftStep now)).filter (ghostHardEligible now)).map (fun g => g.ghost_id)

/-- Boards surviving the cascade of the profile hard delete. -/
def sweepBoards1 (now : Int) (s : Store) : List Board :=
  s.boards.filter (fun b => !(deadGhostIds now s.ghosts).contains b.creator_ghost)

/-- Notes surviving the cascade of the profile hard delete (directly, or
through their board). -/
def sweepNotes1 (now : Int) (s : Store) : List Note :=
  s.notes.filter (fun n => !(deadGhostIds now s.ghosts).contains n.creator_ghost &&
    (sweepBoards1 now s).any (fun b => b.id == n.board))

/-- Upvotes surviving the cascade of the profile hard delete. -/
def sweepUpvotes1 (now : Int) (s : Store) : List Upvote :=
  s.upvotes.filter (fun u => !(deadGhostIds now s.ghosts).contains u.ghost &&
    (sweepNotes1 now s).any (fun n => n.id == u.note))

/-- Boards after the Track B soft-delete update (which reads the ghost
table as left by Track A). -/
def sweepBoards2 (now : Int) (s : Store) : List Board :=
  (sweepBoards1 now s).map (boardSoftStep (sweepGhosts now s.ghosts) now)

/-- Ids of the boards hard-deleted by Track B. -/
def deadBoardIds (now : Int) (s : Store) : List Nat :=
  ((sweepBoards2 now s).filter (boardHardEligible now)).map (fun b => b.id)

/-- Notes surviving the cascade of the board hard delete. -/
def sweepNotes2 (now : Int) (s : Store) : List Note :=
  (sweepNotes1 now s).filter (fun n => !(deadBoardIds now s).contains n.board)

/-- One full run of `purge_expired_data` at time `now`. -/
def sweep (now : Int) (s : Store) : Store :=
  ⟨sweepGhosts now s.ghosts,
   (sweepBoards2 now s).filter (fun b => !boardHardEligible now b),
   sweepNotes2 now s,
   (sweepUpvotes1 now s).filter (fun u => (sweepNotes2 now s).any (fun n => n.id == u.note))⟩

/-! ## Helper lemmas -/

theorem map_eq_self_of_mem {α : Type} {f : α → α} {l : List α} (h : ∀ a ∈ l, f a = a) :
    l.map f = l := by
  induction l with
  | nil => rfl
  | cons x xs ih =>
    simp only [List.map_cons]
    rw [h x (by simp), ih (fun a ha => h a (by simp [ha]))]

theorem find?_eq_some_of_unique {α : Type} {p : α → Bool} {l : List α} {a : α}
    (ha : a ∈ l) (hp : p a = true) (huniq : ∀ x ∈ l, p x = true → x = a) :
    l.find? p = some a := by
  induction l with
  | nil => cases ha
  | cons x xs ih =>
    by_cases hx : p x = true
    · have hxa : x = a := huniq x (by simp) hx
      subst hxa
      exact List.find?_cons_of_pos xs hx
    · rw [List.find?_cons_of_neg xs (by simpa using hx)]
      have hax : a ≠ x := fun he => hx (he ▸ hp)
      exact ih (by simpa [hax] using ha) (fun y hy hpy => huniq y (by simp [hy]) hpy)

/-! ## C5: gravity -/

/-- C5: creating a new Upvote on a Note multiplies both position
coordinates by exactly 0.95 and that position change produces its own
NOTE_UPDATED broadcast carrying the moved note; deleting an Upvote leaves
the position unchanged while re-broadcasting the note's current state; and
starting from position (100, 100), one upvote yields (95, 95) and a second
yields (90.25, 90.25). -/
theorem upvote_gravity :
    (∀ n : Note,
      (upvote_added true n).1.position_x = n.position_x * 0.95 ∧
      (upvote_added true n).1.position_y = n.position_y * 0.95 ∧
      (upvote_added true n).2 =
        [⟨n.board, .NOTE_UPDATED, (upvote_added true n).1⟩]) ∧
    (∀ n : Note,
      (upvote_removed n).1 = n ∧
      (upvote_removed n).2 = [⟨n.board, .NOTE_UPDATED, n⟩]) ∧
    ((upvote_added true ⟨1, 1, 1, "", "YELLOW", 100, 100, true⟩).1.position_x = 95 ∧
     (upvote_added true ⟨1, 1, 1, "", "YELLOW", 100, 100, true⟩).1.position_y = 95 ∧
     (upvote_added true (upvote_added true ⟨1, 1, 1, "", "YELLOW", 100, 100, true⟩).1).1.position_x
        = (90.25 : Rat) ∧
     (upvote_added true (upvote_added true ⟨1, 1, 1, "", "YELLOW", 100, 100, true⟩).1).1.position_y
        = (90.25 : Rat)) := by
  refine ⟨fun n => ⟨rfl, rfl, rfl⟩, fun n => ⟨rfl, rfl⟩, ?_, ?_, ?_, ?_⟩ <;>
    norm_num [upvote_added, applyGravity, GRAVITY_FACTOR]

/-! ## C10: self-voting is rejected (on visible notes) -/

/-- C10 counterexample: the toggle does not return Forbidden for *every*
self-vote — when the author's note sits on a board the author can no longer
access (here: a private board created by a different ghost), `get_object`
404s before the self-vote check is ever reached. -/
theorem toggle_self_vote_404 :
    (⟨100, 10, 1, "hi", "YELLOW", 0, 0, true⟩ : Note) ∈
      (⟨[], [⟨10, "t", 5, false, "SEC", 0, false, none⟩],
        [⟨100, 10, 1, "hi", "YELLOW", 0, 0, true⟩], []⟩ : Store).notes ∧
    toggle_upvote ⟨[], [⟨10, "t", 5, false, "SEC", 0, false, none⟩],
        [⟨100, 10, 1, "hi", "YELLOW", 0, 0, true⟩], []⟩ [] ⟨some 1, none, none⟩ 100 =
      (⟨[], [⟨10, "t", 5, false, "SEC", 0, false, none⟩],
        [⟨100, 10, 1, "hi", "YELLOW", 0, 0, true⟩], []⟩, .notFound) := by
  decide

/-- C10 (amended): for every note in the requester's filtered queryset
(its board neither soft-deleted nor inaccessible), a toggle request whose
ghost context equals the note's creator ghost returns Forbidden and leaves
the store (upvote rows and note positions) unchanged; a note outside the
queryset is 404 NotFound instead. -/
theorem toggle_self_vote (s : Store) (invites : List BoardInvite) (req : NoteRequest)
    (note : Note) (g : Nat)
    (hfind : (note_queryset s invites req).find? (fun n => n.id == note.id) = some note)
    (hghost : req.ghost = some g)
    (hself : note.creator_ghost = g) :
    toggle_upvote s invites req note.id = (s, .forbidden) := by
  simp only [toggle_upvote, hfind, hghost]
  simp [hself]

/-- Witness for `toggle_self_vote`: ghost 1 voting on its own note 100 on a
public board. -/
theorem toggle_self_vote_witness :
    toggle_upvote ⟨[], [⟨10, "t", 1, true, "SEC", 0, false, none⟩],
        [⟨100, 10, 1, "hello", "YELLOW", 100, 100, true⟩], []⟩ [] ⟨some 1, none, none⟩ 100 =
      (⟨[], [⟨10, "t", 1, true, "SEC", 0, false, none⟩],
        [⟨100, 10, 1, "hello", "YELLOW", 100, 100, true⟩], []⟩, .forbidden) :=
  toggle_self_vote _ [] ⟨some 1, none, none⟩ ⟨100, 10, 1, "hello", "YELLOW", 100, 100, true⟩ 1
    (by decide) rfl (by decide)

/-! ## C6: board-admin status -/

theorem strLower_eq_empty {s : String} (h : strLower s = "") : s = "" := by
  have h2 : s.data.map Char.toLower = [] := congrArg String.data h
  have h3 : s.data = [] := by simpa using h2
  cases s
  exact congrArg String.mk h3

theorem token_match_iff (t secret : String) (hsec : secret ≠ "") :
    (¬t = "" ∧ strLower secret = strLower t) ↔ strLower t = strLower secret := by
  constructor
  · intro h
    exact h.2.symm
  · intro h
    have ht : ¬t = "" := by
      intro he
      subst he
      exact hsec (strLower_eq_empty (by simpa [strLower] using h.symm))
    exact ⟨ht, h.symm⟩

/-- C6: in the write-permission check, board-admin status holds exactly
when the presented X-Admin-Token case-insensitively equals the board's
current admin secret, or the requester's authenticated account owns the
board's creator ghost.  Stated under the integrity assumption that the
stored secret is nonempty (in the source it is always a UUID string). -/
theorem admin_rights_iff (ghosts : List Ghost) (req : PermRequest) (b : Board)
    (hsec : b.secret_admin_token ≠ "") :
    has_admin_rights ghosts req b = true ↔
      ((∃ t, req.admin_token = some t ∧ strLower t = strLower b.secret_admin_token) ∨
       (∃ u g, req.user = some u ∧ findGhost ghosts b.creator_ghost = some g ∧
          g.user = some u)) := by
  have htok := fun t => token_match_iff t b.secret_admin_token hsec
  unfold has_admin_rights ghostUserIs
  cases hat : req.admin_token with
  | none =>
    cases hu : req.user with
    | none => simp
    | some u =>
      cases hg : findGhost ghosts b.creator_ghost with
      | none => simp
      | some g => simp
  | some t =>
    cases hu : req.user with
    | none => simp [htok]
    | some u =>
      cases hg : findGhost ghosts b.creator_ghost with
      | none => simp [htok]
      | some g => simp [htok]

/-- Witness for `admin_rights_iff`: an admin secret stored as "AbC" and
presented as "aBc" still grants board-admin status. -/
theorem admin_rights_iff_witness :
    has_admin_rights [] ⟨"PATCH", none, none, some "aBc", []⟩
      ⟨10, "t", 1, true, "AbC", 0, false, none⟩ = true :=
  (admin_rights_iff [] ⟨"PATCH", none, none, some "aBc", []⟩
      ⟨10, "t", 1, true, "AbC", 0, false, none⟩ (by decide)).mpr
    (Or.inl ⟨"aBc", rfl, by decide⟩)

/-! ## C2: admins may only reposition someone else's note -/

/-- C2: when the requester is neither the note's authoring ghost nor an
account owning that ghost, but holds board-admin status, a write on the
note is accepted if and only if it is a PATCH whose nonempty field set is
a subset of position_x, position_y; every other write is rejected. -/
theorem admin_reposition_only (ghosts : List Ghost) (req : PermRequest) (n : Note) (b : Board)
    (hmethod : req.method ∉ SAFE_METHODS)
    (hghost : ∀ g, req.ghost = some g → n.creator_ghost ≠ g)
    (huser : ∀ u, req.user = some u → ghostUserIs ghosts n.creator_ghost u = false)
    (hadmin : has_admin_rights ghosts req b = true) :
    has_object_permission ghosts req (.note n b) = true ↔
      (req.method = "PATCH" ∧ req.data_fields ≠ [] ∧
        ∀ f ∈ req.data_fields, f = "position_x" ∨ f = "position_y") := by
  unfold has_object_permission
  rw [if_neg hmethod]
  have h1 : (match req.ghost with | some g => n.creator_ghost == g | none => false) = false := by
    cases hg : req.ghost with
    | none => rfl
    | some g => simpa using hghost g hg
  have h2 : (match req.user with
      | some u => ghostUserIs ghosts n.creator_ghost u | none => false) = false := by
    cases hu : req.user with
    | none => rfl
    | some u => exact huser u hu
  simp only [h1, h2, hadmin, Bool.false_eq_true, if_false, if_true]
  cases hm : req.method == "PATCH" with
  | false =>
    simp only [if_false, Bool.false_eq_true]
    constructor
    · intro h
      cases h
    · rintro ⟨hp, -⟩
      exact absurd hp (by simpa using hm)
  | true =>
    have hp : req.method = "PATCH" := by simpa using hm
    simp [hp, List.isEmpty_iff, List.all_eq_true, and_assoc]

/-- Witness for `admin_reposition_only`: a token-holding admin PATCHing
only position fields on another ghost's note is accepted. -/
theorem admin_reposition_only_witness :
    has_object_permission [] ⟨"PATCH", some 5, none, some "SEC", ["position_x", "position_y"]⟩
      (.note ⟨100, 10, 3, "hi", "YELLOW", 0, 0, true⟩ ⟨10, "t", 1, true, "SEC", 0, false, none⟩)
      = true :=
  (admin_reposition_only [] ⟨"PATCH", some 5, none, some "SEC", ["position_x", "position_y"]⟩
      ⟨100, 10, 3, "hi", "YELLOW", 0, 0, true⟩ ⟨10, "t", 1, true, "SEC", 0, false, none⟩
      (by decide)
      (fun g hg => by injection hg with h; subst h; decide)
      (fun u hu => Option.noConfusion hu)
      (by decide)).mpr
    ⟨rfl, by decide, by decide⟩

/-! ## C1: OTP merge conflict -/

/-- C1: when OTP verification succeeds for an email whose account already
has linked ghost G1, and the presented ghost G2 is a different,
data-bearing, unlinked ghost, the result is a conflict and no link is
performed: the store is unchanged (G2 stays unlinked, G1 stays the
account's ghost), the response lists G2's boards at risk, and session
credentials are still issued. -/
theorem verify_otp_conflict (s : Store) (now : Int) (A : Nat) (G1 G2 : Ghost)
    (hG1 : findUserGhost s.ghosts A = some G1)
    (hG2 : findGhost s.ghosts G2.ghost_id = some G2)
    (hne : G2.ghost_id ≠ G1.ghost_id)
    (hG2u : G2.user = none)
    (hdata : hasAnonymousData s G2.ghost_id = true) :
    (verify_otp s now A G2.ghost_id).2.has_conflict = true ∧
    (verify_otp s now A G2.ghost_id).1 = s ∧
    findUserGhost (verify_otp s now A G2.ghost_id).1.ghosts A = some G1 ∧
    (∀ g, findGhost (verify_otp s now A G2.ghost_id).1.ghosts G2.ghost_id = some g →
      g.user = none) ∧
    (verify_otp s now A G2.ghost_id).2.anonymous_boards =
      (s.boards.filter (fun b => b.creator_ghost == G2.ghost_id)).map (fun b => b.id) ∧
    (verify_otp s now A G2.ghost_id).2.tokens_issued = true := by
  have hmain : verify_otp s now A G2.ghost_id =
      (s, ⟨true, (s.boards.filter (fun b => b.creator_ghost == G2.ghost_id)).map (fun b => b.id),
           true, G1.ghost_id⟩) := by
    unfold verify_otp getOrCreateGhost
    rw [hG2]
    simp only [hG1, hdata, Ne.symm hne, ne_eq, not_false_eq_true, if_true]
  rw [hmain]
  refine ⟨rfl, rfl, hG1, ?_, rfl, rfl⟩
  intro g hg
  rw [hG2] at hg
  injection hg with h
  exact h ▸ hG2u

/-- Witness fixture: account 1 linked to ghost 1, unlinked ghost 2 owning
board 20. -/
def exG1 : Ghost := ⟨1, some 1, 0, false, none⟩

def exG2 : Ghost := ⟨2, none, 0, false, none⟩

def exStoreC1 : Store :=
  ⟨[exG1, exG2],
   [⟨10, "t", 1, true, "S1", 0, false, none⟩, ⟨20, "u", 2, true, "S2", 0, false, none⟩],
   [], []⟩

/-- Witness for `verify_otp_conflict`: verifying account 1 with data-bearing
ghost 2 conflicts, changes nothing, and lists board 20. -/
theorem verify_otp_conflict_witness :
    (verify_otp exStoreC1 5 1 2).2.has_conflict = true ∧
    (verify_otp exStoreC1 5 1 2).1 = exStoreC1 ∧
    (verify_otp exStoreC1 5 1 2).2.anonymous_boards = [20] ∧
    (verify_otp exStoreC1 5 1 2).2.tokens_issued = true := by
  have h := verify_otp_conflict exStoreC1 5 1 exG1 exG2
    (by decide) (by decide) (by decide) (by decide) (by decide)
  exact ⟨h.1, h.2.1, h.2.2.2.2.1.trans (by decide), h.2.2.2.2.2⟩

/-! ## C4 and C9: explicit migration -/

theorem mem_map_update_of_pos {α : Type} {p : α → Bool} {f : α → α} {l : List α} {a : α}
    (ha : a ∈ l) (hp : p a = true) :
    f a ∈ l.map (fun x => if p x then f x else x) := by
  have h := List.mem_map_of_mem (fun x => if p x then f x else x) ha
  simpa [hp] using h

theorem mem_map_update_of_neg {α : Type} {p : α → Bool} {f : α → α} {l : List α} {a : α}
    (ha : a ∈ l) (hp : p a = false) :
    a ∈ l.map (fun x => if p x then f x else x) := by
  have h := List.mem_map_of_mem (fun x => if p x then f x else x) ha
  simpa [hp] using h

theorem forall_mem_map_update {α : Type} {p : α → Bool} {f : α → α} {l : List α}
    {q : α → Prop}
    (h1 : ∀ a ∈ l, p a = true → q (f a)) (h2 : ∀ a ∈ l, p a = false → q a) :
    ∀ b ∈ l.map (fun x => if p x then f x else x), q b := by
  intro b hb
  rcases List.mem_map.mp hb with ⟨a, ha, rfl⟩
  by_cases hpa : p a = true
  · simpa [hpa] using h1 a ha hpa
  · have hf : p a = false := by simpa using hpa
    simpa [hf] using h2 a ha hf

theorem migrateTarget_mem (s : Store) (userId : Nat) (source : Ghost)
    (hsrc : source ∈ s.ghosts) : migrateTarget s userId source ∈ s.ghosts := by
  unfold migrateTarget
  cases hft : findUserGhost s.ghosts userId with
  | none => exact hsrc
  | some pg => exact List.mem_of_find?_eq_some hft

theorem migrate_eq_of_ne (s : Store) (userId sg : Nat) (source : Ghost)
    (hs : findGhost s.ghosts sg = some source)
    (hne : source.ghost_id ≠ (migrateTarget s userId source).ghost_id) :
    migrate s userId (some sg) =
      ({ ghosts := linkGhost s.ghosts (migrateTarget s userId source).ghost_id userId,
         boards := s.boards.map (fun b =>
           if b.creator_ghost == source.ghost_id then
             { b with creator_ghost := (migrateTarget s userId source).ghost_id } else b),
         notes := s.notes.map (fun n =>
           if n.creator_ghost == source.ghost_id then
             { n with creator_ghost := (migrateTarget s userId source).ghost_id } else n),
         upvotes := s.upvotes.map (fun u =>
           if u.ghost == source.ghost_id then
             { u with ghost := (migrateTarget s userId source).ghost_id } else u) }, .ok) := by
  unfold migrate
  simp only [hs, hne, ne_eq, not_false_eq_true, if_true]

theorem migrate_eq_of_eq (s : Store) (userId sg : Nat) (source : Ghost)
    (hs : findGhost s.ghosts sg = some source)
    (he : source.ghost_id = (migrateTarget s userId source).ghost_id) :
    migrate s userId (some sg) =
      ({ s with ghosts := linkGhost s.ghosts (migrateTarget s userId source).ghost_id userId },
       .ok) := by
  unfold migrate
  simp only [hs, he, ne_eq, not_true_eq_false, if_false]

theorem linked_target_mem (s : Store) (userId : Nat) (tgt : Ghost) (htgt : tgt ∈ s.ghosts) :
    ∃ g ∈ linkGhost s.ghosts tgt.ghost_id userId,
      g.ghost_id = tgt.ghost_id ∧ g.user = some userId := by
  refine ⟨{ tgt with user := some userId }, ?_, rfl, rfl⟩
  have h := List.mem_map_of_mem
    (fun g => if g.ghost_id == tgt.ghost_id then { g with user := some userId } else g) htgt
  simpa [linkGhost] using h

/-- C4: the explicit migration resolves the target as the account's linked
ghost or else the source itself; on success it links the target to the
account and, when source ≠ target, reassigns every board, note and upvote
row from the source ghost to the target ghost; an unknown source id yields
NotFound and changes nothing. -/
theorem migrate_spec (s : Store) (userId sg : Nat) :
    (findGhost s.ghosts sg = none → migrate s userId (some sg) = (s, .notFound)) ∧
    (∀ source, findGhost s.ghosts sg = some source →
      (migrate s userId (some sg)).2 = MigrateResult.ok ∧
      (∃ g ∈ (migrate s userId (some sg)).1.ghosts,
        g.ghost_id = (migrateTarget s userId source).ghost_id ∧ g.user = some userId) ∧
      (source.ghost_id ≠ (migrateTarget s userId source).ghost_id →
        (∀ b ∈ s.boards, b.creator_ghost = source.ghost_id →
          { b with creator_ghost := (migrateTarget s userId source).ghost_id } ∈
            (migrate s userId (some sg)).1.boards) ∧
        (∀ b ∈ s.boards, b.creator_ghost ≠ source.ghost_id →
          b ∈ (migrate s userId (some sg)).1.boards) ∧
        (∀ b ∈ (migrate s userId (some sg)).1.boards, b.creator_ghost ≠ source.ghost_id) ∧
        (∀ n ∈ s.notes, n.creator_ghost = source.ghost_id →
          { n with creator_ghost := (migrateTarget s userId source).ghost_id } ∈
            (migrate s userId (some sg)).1.notes) ∧
        (∀ n ∈ s.notes, n.creator_ghost ≠ source.ghost_id →
          n ∈ (migrate s userId (some sg)).1.notes) ∧
        (∀ n ∈ (migrate s userId (some sg)).1.notes, n.creator_ghost ≠ source.ghost_id) ∧
        (∀ u ∈ s.upvotes, u.ghost = source.ghost_id →
          { u with ghost := (migrateTarget s userId source).ghost_id } ∈
            (migrate s userId (some sg)).1.upvotes) ∧
        (∀ u ∈ s.upvotes, u.ghost ≠ source.ghost_id →
          u ∈ (migrate s userId (some sg)).1.upvotes) ∧
        (∀ u ∈ (migrate s userId (some sg)).1.upvotes, u.ghost ≠ source.ghost_id))) := by
  constructor
  · intro h
    unfold migrate
    simp only [h]
  · intro source hs
    have hsrcmem : source ∈ s.ghosts := List.mem_of_find?_eq_some hs
    have htgtmem := migrateTarget_mem s userId source hsrcmem
    by_cases hne : source.ghost_id = (migrateTarget s userId source).ghost_id
    · rw [migrate_eq_of_eq s userId sg source hs hne]
      refine ⟨rfl, linked_target_mem s userId _ htgtmem, fun hx => absurd hne hx⟩
    · rw [migrate_eq_of_ne s userId sg source hs hne]
      refine ⟨rfl, linked_target_mem s userId _ htgtmem, fun _ => ?_⟩
      have htgtne : ∀ x : Nat, x = (migrateTarget s userId source).ghost_id →
          x ≠ source.ghost_id := by
        intro x hx
        rw [hx]
        exact fun hc => hne hc.symm
      refine ⟨fun b hb hbe => ?_, fun b hb hbe => ?_, ?_,
              fun n hn hne2 => ?_, fun n hn hne2 => ?_, ?_,
              fun u hu hue => ?_, fun u hu hue => ?_, ?_⟩
      · exact mem_map_update_of_pos hb (by simpa using hbe)
      · exact mem_map_update_of_neg hb (by simpa using hbe)
      · exact forall_mem_map_update
          (fun a _ _ => htgtne _ rfl) (fun a _ hpa => by simpa using hpa)
      · exact mem_map_update_of_pos hn (by simpa using hne2)
      · exact mem_map_update_of_neg hn (by simpa using hne2)
      · exact forall_mem_map_update
          (fun a _ _ => htgtne _ rfl) (fun a _ hpa => by simpa using hpa)
      · exact mem_map_update_of_pos hu (by simpa using hue)
      · exact mem_map_update_of_neg hu (by simpa using hue)
      · exact forall_mem_map_update
          (fun a _ _ => htgtne _ rfl) (fun a _ hpa => by simpa using hpa)

/-- Witness for `migrate_spec`: in the two-ghost fixture store, migrating
an unknown ghost id 99 is NotFound and changes nothing, and migrating
ghost 2 into account 1 (whose ghost is 1) succeeds. -/
theorem migrate_spec_witness :
    migrate exStoreC1 1 (some 99) = (exStoreC1, .notFound) ∧
    (migrate exStoreC1 1 (some 2)).2 = MigrateResult.ok :=
  ⟨(migrate_spec exStoreC1 1 99).1 (by decide),
   ((migrate_spec exStoreC1 1 2).2 exG2 (by decide)).1⟩

/-- C9: migration never fails with Conflict — it succeeds for every source
ghost present in the store, even one linked to a different account; when
the caller's account has no linked ghost, the source ghost itself is
relinked to the caller, silently taking it (and its data, which stays in
place) away from the account that owned it. -/
theorem migrate_no_conflict (s : Store) (userId other sg : Nat) (source : Ghost)
    (hs : findGhost s.ghosts sg = some source)
    (hnog : findUserGhost s.ghosts userId = none)
    (hsrc : source.user = some other)
    (hneu : other ≠ userId)
    (honly : ∀ g ∈ s.ghosts, g.user = some other → g.ghost_id = source.ghost_id) :
    (migrate s userId (some sg)).2 = MigrateResult.ok ∧
    (migrate s userId (some sg)).1.boards = s.boards ∧
    (migrate s userId (some sg)).1.notes = s.notes ∧
    (migrate s userId (some sg)).1.upvotes = s.upvotes ∧
    (∀ g ∈ (migrate s userId (some sg)).1.ghosts, g.ghost_id = source.ghost_id →
      g.user = some userId) ∧
    (∃ g ∈ (migrate s userId (some sg)).1.ghosts,
      g.ghost_id = source.ghost_id ∧ g.user = some userId) ∧
    findUserGhost (migrate s userId (some sg)).1.ghosts other = none := by
  have htgt : migrateTarget s userId source = source := by
    unfold migrateTarget
    rw [hnog]
  have hmain := migrate_eq_of_eq s userId sg source hs (by rw [htgt])
  rw [htgt] at hmain
  rw [hmain]
  refine ⟨rfl, rfl, rfl, rfl, ?_, ?_, ?_⟩
  · intro g hg hgid
    rcases List.mem_map.mp hg with ⟨g0, hg0, rfl⟩
    by_cases hid : g0.ghost_id == source.ghost_id
    · simp [hid]
    · have : g0.ghost_id ≠ source.ghost_id := by simpa using hid
      simp only [hid, Bool.false_eq_true, if_false] at hgid ⊢
      exact absurd hgid this
  · exact linked_target_mem s userId source (List.mem_of_find?_eq_some hs)
  · unfold findUserGhost linkGhost
    rw [List.find?_eq_none]
    intro g hg
    rcases List.mem_map.mp hg with ⟨g0, hg0, rfl⟩
    by_cases hid : g0.ghost_id == source.ghost_id
    · simp [hid, Ne.symm hneu]
    · have hgne : g0.ghost_id ≠ source.ghost_id := by simpa using hid
      simp only [hid, Bool.false_eq_true, if_false]
      intro hgu
      exact hgne (honly g0 hg0 (by simpa using hgu))

/-- Fixture: ghost 2 linked to account 9, account 7 has no ghost. -/
def exG2Linked : Ghost := ⟨2, some 9, 0, false, none⟩

def exStoreC9 : Store :=
  ⟨[exG1, exG2Linked], [⟨20, "u", 2, true, "S2", 0, false, none⟩], [], []⟩

/-- Witness for `migrate_no_conflict`: account 7 (no ghost) migrates ghost 2
already linked to account 9 — the call succeeds and relinks ghost 2. -/
theorem migrate_no_conflict_witness :
    (migrate exStoreC9 7 (some 2)).2 = MigrateResult.ok ∧
    findUserGhost (migrate exStoreC9 7 (some 2)).1.ghosts 9 = none := by
  have h := migrate_no_conflict exStoreC9 7 9 2 exG2Linked
    (by decide) (by decide) (by decide) (by decide)
    (by intro g hg hu; fin_cases hg <;> simp_all [exG1, exG2Linked])
  exact ⟨h.1, h.2.2.2.2.2.2⟩

/-! ## C7: toggle semantics and per-pair uniqueness -/

/-- The `unique_together = (note, ghost)` constraint on `Upvote`: at most
one row per (note, ghost) pair. -/
def upvotesUnique (l : List Upvote) : Prop :=
  l.Pairwise (fun a b => ¬(a.note = b.note ∧ a.ghost = b.ghost))

theorem find?_notes_map_gravity (l : List Note) (nid : Nat) :
    (l.map (fun n => if n.id == nid then applyGravity n else n)).find? (fun n => n.id == nid) =
      (l.find? (fun n => n.id == nid)).map
        (fun n => if n.id == nid then applyGravity n else n) := by
  rw [List.find?_map]
  have hp : ((fun n : Note => n.id == nid) ∘
      (fun n => if n.id == nid then applyGravity n else n)) = (fun n : Note => n.id == nid) := by
    funext n
    by_cases h : n.id = nid
    · simp [h, applyGravity]
    · simp [h]
  rw [hp]

/-- Visibility of a note depends only on its board reference, which the
gravity rescale preserves. -/
theorem note_visible_applyGravity (gs : List Ghost) (bs : List Board)
    (invites : List BoardInvite) (req : NoteRequest) (n : Note) :
    note_visible gs bs invites req (applyGravity n) = note_visible gs bs invites req n := rfl

theorem filter_map_comm {α : Type} (f : α → α) (q : α → Bool) (l : List α)
    (h : ∀ x, q (f x) = q x) : (l.map f).filter q = (l.filter q).map f := by
  induction l with
  | nil => rfl
  | cons x xs ih =>
    simp only [List.map_cons, List.filter_cons, h x]
    cases hq : q x <;> simp [ih]

/-- C7 counterexample: the toggle is not error-free for *every* note and
non-author ghost — for a note on a private board of another ghost,
`get_object` resolves the pk inside the filtered queryset and the endpoint
404s, creating no row. -/
theorem toggle_twice_404 :
    (⟨100, 10, 1, "hi", "YELLOW", 0, 0, true⟩ : Note) ∈
      (⟨[], [⟨10, "t", 1, false, "SEC", 0, false, none⟩],
        [⟨100, 10, 1, "hi", "YELLOW", 0, 0, true⟩], []⟩ : Store).notes ∧
    (⟨100, 10, 1, "hi", "YELLOW", 0, 0, true⟩ : Note).creator_ghost ≠ 2 ∧
    toggle_upvote ⟨[], [⟨10, "t", 1, false, "SEC", 0, false, none⟩],
        [⟨100, 10, 1, "hi", "YELLOW", 0, 0, true⟩], []⟩ [] ⟨some 2, none, none⟩ 100 =
      (⟨[], [⟨10, "t", 1, false, "SEC", 0, false, none⟩],
        [⟨100, 10, 1, "hi", "YELLOW", 0, 0, true⟩], []⟩, .notFound) := by
  decide

/-- C7 (amended): for a note in the requester's filtered queryset (its
board neither soft-deleted nor inaccessible) and a non-author ghost with
no existing upvote row, toggling twice first creates the unique
(note, ghost) row and reports "upvoted", then deletes it and reports
"unvoted"; per-pair uniqueness holds at every point and the upvote rows
return exactly to the initial state.  A note outside the queryset is 404
NotFound instead. -/
theorem toggle_twice (s : Store) (invites : List BoardInvite) (req : NoteRequest)
    (note : Note) (g : Nat)
    (hfind : (note_queryset s invites req).find? (fun n => n.id == note.id) = some note)
    (hghost : req.ghost = some g)
    (hauthor : note.creator_ghost ≠ g)
    (hnone : ∀ u ∈ s.upvotes, ¬(u.note = note.id ∧ u.ghost = g))
    (huniq : upvotesUnique s.upvotes) :
    (∃ k, (toggle_upvote s invites req note.id).2 = .upvoted k) ∧
    ((toggle_upvote s invites req note.id).1.upvotes.countP
        (fun u => u.note == note.id && u.ghost == g) = 1) ∧
    upvotesUnique (toggle_upvote s invites req note.id).1.upvotes ∧
    (∃ k, (toggle_upvote (toggle_upvote s invites req note.id).1 invites req note.id).2
        = .unvoted k) ∧
    (toggle_upvote (toggle_upvote s invites req note.id).1 invites req note.id).1.upvotes
        = s.upvotes ∧
    upvotesUnique
      (toggle_upvote (toggle_upvote s invites req note.id).1 invites req note.id).1.upvotes := by
  have hb : (note.creator_ghost == g) = false := by simpa using hauthor
  have hpnone : s.upvotes.find? (fun u => u.note == note.id && u.ghost == g) = none := by
    rw [List.find?_eq_none]
    intro u hu
    simpa using hnone u hu
  have h1 : toggle_upvote s invites req note.id =
      (⟨s.ghosts, s.boards,
        s.notes.map (fun n => if n.id == note.id then applyGravity n else n),
        s.upvotes ++ [⟨note.id, g⟩]⟩,
       .upvoted (upvoteCount (s.upvotes ++ [⟨note.id, g⟩]) note.id)) := by
    unfold toggle_upvote
    simp only [hfind, hghost, hb, Bool.false_eq_true, if_false, hpnone]
  have hq : ∀ x : Note, note_visible s.ghosts s.boards invites req
      (if x.id == note.id then applyGravity x else x)
        = note_visible s.ghosts s.boards invites req x := by
    intro x
    by_cases h : (x.id == note.id) = true
    · simp only [h, if_true]
      exact note_visible_applyGravity s.ghosts s.boards invites req x
    · simp only [h, Bool.false_eq_true, if_false]
  have hfindq : (s.notes.filter (note_visible s.ghosts s.boards invites req)).find?
      (fun n => n.id == note.id) = some note := hfind
  have hfind1 : (note_queryset
      (⟨s.ghosts, s.boards,
        s.notes.map (fun n => if n.id == note.id then applyGravity n else n),
        s.upvotes ++ [⟨note.id, g⟩]⟩ : Store) invites req).find? (fun n => n.id == note.id)
      = some (applyGravity note) := by
    show ((s.notes.map (fun n => if n.id == note.id then applyGravity n else n)).filter
        (note_visible s.ghosts s.boards invites req)).find? (fun n => n.id == note.id)
      = some (applyGravity note)
    rw [filter_map_comm _ _ _ hq, find?_notes_map_gravity, hfindq]
    simp
  have hfound2 : (s.upvotes ++ [(⟨note.id, g⟩ : Upvote)]).find?
      (fun u => u.note == note.id && u.ghost == g) = some ⟨note.id, g⟩ := by
    rw [List.find?_append, hpnone]
    simp [List.find?]
  have herase : (s.upvotes ++ [(⟨note.id, g⟩ : Upvote)]).eraseP
      (fun u => u.note == note.id && u.ghost == g) = s.upvotes := by
    rw [List.eraseP_append_right _ (fun b hbm => by simpa using hnone b hbm)]
    simp [List.eraseP_cons]
  have hb2 : ((applyGravity note).creator_ghost == g) = false := hb
  have h2 : toggle_upvote
      (⟨s.ghosts, s.boards,
        s.notes.map (fun n => if n.id == note.id then applyGravity n else n),
        s.upvotes ++ [⟨note.id, g⟩]⟩ : Store) invites req note.id =
      (⟨s.ghosts, s.boards,
        s.notes.map (fun n => if n.id == note.id then applyGravity n else n),
        s.upvotes⟩,
       .unvoted (upvoteCount s.upvotes note.id)) := by
    unfold toggle_upvote
    simp only [hfind1, hghost, hb2, Bool.false_eq_true, if_false, hfound2, herase]
  have huniq1 : upvotesUnique (s.upvotes ++ [⟨note.id, g⟩]) := by
    rw [upvotesUnique, List.pairwise_append]
    refine ⟨huniq, List.pairwise_singleton _ _, ?_⟩
    intro a ha b hbmem
    rcases List.mem_singleton.mp hbmem with rfl
    exact hnone a ha
  rw [h1]
  refine ⟨⟨_, rfl⟩, ?_, huniq1, ⟨_, by rw [h2]⟩, by rw [h2], by rw [h2]; exact huniq⟩
  rw [List.countP_append]
  have hz : s.upvotes.countP (fun u => u.note == note.id && u.ghost == g) = 0 := by
    rw [List.countP_eq_zero]
    intro u hu
    simpa using hnone u hu
  rw [hz]
  simp [List.countP, List.countP.go]

/-- Witness fixture for the toggle: note 100 authored by ghost 1 on the
public board 10. -/
def exNote : Note := ⟨100, 10, 1, "hello", "YELLOW", 100, 100, true⟩

def exStoreC7 : Store := ⟨[], [⟨10, "t", 1, true, "S", 0, false, none⟩], [exNote], []⟩

def exReqC7 : NoteRequest := ⟨some 2, none, none⟩

/-- Witness for `toggle_twice`: ghost 2 toggling the visible note 100
twice creates exactly one row and then removes it again. -/
theorem toggle_twice_witness :
    ((toggle_upvote exStoreC7 [] exReqC7 100).1.upvotes.countP
        (fun u => u.note == 100 && u.ghost == 2) = 1) ∧
    (toggle_upvote (toggle_upvote exStoreC7 [] exReqC7 100).1 [] exReqC7 100).1.upvotes
        = [] := by
  have h := toggle_twice exStoreC7 [] exReqC7 exNote 2 (by decide) rfl (by decide)
    (fun u hu => absurd hu (List.not_mem_nil u))
    List.Pairwise.nil
  exact ⟨h.2.1, h.2.2.2.2.1⟩

/-! ## C3 and C8: retention sweep -/

theorem ghostSoftStep_ghost_id (now : Int) (g : Ghost) :
    (ghostSoftStep now g).ghost_id = g.ghost_id := by
  unfold ghostSoftStep
  split <;> rfl

theorem ghostSoftStep_user (now : Int) (g : Ghost) :
    (ghostSoftStep now g).user = g.user := by
  unfold ghostSoftStep
  split <;> rfl

theorem ghostSoftStep_idem (now : Int) (g : Ghost) :
    ghostSoftStep now (ghostSoftStep now g) = ghostSoftStep now g := by
  unfold ghostSoftStep
  split <;> simp_all

theorem boardSoftStep_id (gs : List Ghost) (now : Int) (b : Board) :
    (boardSoftStep gs now b).id = b.id := by
  unfold boardSoftStep
  split <;> rfl

theorem boardSoftStep_idem (gs : List Ghost) (now : Int) (b : Board) :
    boardSoftStep gs now (boardSoftStep gs now b) = boardSoftStep gs now b := by
  unfold boardSoftStep
  split <;> simp_all

/-- C3 counterexample: a claimed board (creator ghost 1 is linked to
account 1) created 40 days ago is removed from the store by the sequence
of sweeps at day 40 and day 48 — the ghost track soft-deletes the linked
creator ghost at day 40, hard-deletes it at day 48, and the deletion
cascades to the board. -/
theorem sweep_removes_claimed_board :
    (ghostUserIs [⟨1, some 1, 0, false, none⟩] 1 1 = true) ∧
    (⟨10, "t", 1, true, "SEC", 0, false, none⟩ : Board) ∈
      (⟨[⟨1, some 1, 0, false, none⟩], [⟨10, "t", 1, true, "SEC", 0, false, none⟩], [], []⟩
        : Store).boards ∧
    (sweep 40 ⟨[⟨1, some 1, 0, false, none⟩],
        [⟨10, "t", 1, true, "SEC", 0, false, none⟩], [], []⟩).boards =
      [⟨10, "t", 1, true, "SEC", 0, false, none⟩] ∧
    (sweep 48 (sweep 40 ⟨[⟨1, some 1, 0, false, none⟩],
        [⟨10, "t", 1, true, "SEC", 0, false, none⟩], [], []⟩)).boards = [] := by
  decide

/-- C3 (amended): the board track of the retention sweep never soft-deletes
a claimed board — a board whose creator ghost is linked to an account is
left untouched by a sweep (so a claimed board created 40 days ago is never
soft-deleted) as long as its creator ghost is not itself hard-deleted by
the ghost track in that run.  A claimed board is not permanently exempt,
though: it can be removed by the cascade of its creator ghost's hard
deletion, because the ghost track ignores account links. -/
theorem claimed_board_not_soft_deleted (s : Store) (now : Int) (b : Board) (g : Ghost) (u : Nat)
    (hb : b ∈ s.boards)
    (hbsoft : b.is_soft_deleted = false)
    (hg : findGhost s.ghosts b.creator_ghost = some g)
    (hgu : g.user = some u)
    (hguniq : ∀ g2 ∈ s.ghosts, g2.ghost_id = b.creator_ghost → g2 = g)
    (hlive : ghostHardEligible now (ghostSoftStep now g) = false) :
    b ∈ (sweep now s).boards := by
  have hgid : g.ghost_id = b.creator_ghost := by simpa using List.find?_some hg
  have hgmem : g ∈ s.ghosts := List.mem_of_find?_eq_some hg
  have hdead : b.creator_ghost ∉ deadGhostIds now s.ghosts := by
    intro hc
    rcases List.mem_map.mp hc with ⟨g1, hg1, hgid1⟩
    have hg1f := List.mem_filter.mp hg1
    rcases List.mem_map.mp hg1f.1 with ⟨g0, hg0, rfl⟩
    have hid0 : g0.ghost_id = b.creator_ghost := by
      rw [← hgid1, ghostSoftStep_ghost_id]
    rw [hguniq g0 hg0 hid0, hlive] at hg1f
    exact Bool.false_ne_true hg1f.2
  have hb1 : b ∈ sweepBoards1 now s :=
    List.mem_filter.mpr ⟨hb, by simp [hdead]⟩
  have hfind2 : findGhost (sweepGhosts now s.ghosts) b.creator_ghost
      = some (ghostSoftStep now g) := by
    apply find?_eq_some_of_unique
    · exact List.mem_filter.mpr ⟨List.mem_map_of_mem _ hgmem, by simp [hlive]⟩
    · simp [ghostSoftStep_ghost_id, hgid]
    · intro x hx hpx
      rcases List.mem_map.mp (List.mem_filter.mp hx).1 with ⟨x0, hx0, rfl⟩
      have hidx : x0.ghost_id = b.creator_ghost := by
        simpa [ghostSoftStep_ghost_id] using hpx
      rw [hguniq x0 hx0 hidx]
  have hstep : boardSoftStep (sweepGhosts now s.ghosts) now b = b := by
    have hu2 : ((ghostSoftStep now g).user == none) = false := by
      rw [ghostSoftStep_user, hgu]
      rfl
    unfold boardSoftStep
    rw [hfind2]
    simp [hu2]
  have hb2 : b ∈ sweepBoards2 now s :=
    hstep ▸ List.mem_map_of_mem _ hb1
  have helig : boardHardEligible now b = false := by
    unfold boardHardEligible
    rw [hbsoft]
    rfl
  show b ∈ (sweepBoards2 now s).filter (fun b => !boardHardEligible now b)
  exact List.mem_filter.mpr ⟨hb2, by simp [helig]⟩

/-- Witness for `claimed_board_not_soft_deleted`: the claimed board of the
counterexample store does survive the single sweep at day 40 (only the
later sweep's ghost cascade removes it). -/
theorem claimed_board_not_soft_deleted_witness :
    (⟨10, "t", 1, true, "SEC", 0, false, none⟩ : Board) ∈
      (sweep 40 ⟨[⟨1, some 1, 0, false, none⟩],
        [⟨10, "t", 1, true, "SEC", 0, false, none⟩], [], []⟩).boards :=
  claimed_board_not_soft_deleted
    ⟨[⟨1, some 1, 0, false, none⟩], [⟨10, "t", 1, true, "SEC", 0, false, none⟩], [], []⟩
    40 ⟨10, "t", 1, true, "SEC", 0, false, none⟩ ⟨1, some 1, 0, false, none⟩ 1
    (by decide) (by decide) (by decide) (by decide) (by decide) (by decide)

/-- A store on which one sweep run at `now` changes nothing: every row was
already past both stages or not yet eligible. -/
theorem sweep_fix (now : Int) (s : Store)
    (h1 : ∀ g ∈ s.ghosts, ghostSoftStep now g = g)
    (h2 : ∀ g ∈ s.ghosts, ghostHardEligible now g = false)
    (h3 : ∀ b ∈ s.boards, boardSoftStep s.ghosts now b = b)
    (h4 : ∀ b ∈ s.boards, boardHardEligible now b = false)
    (h5 : ∀ n ∈ s.notes, s.boards.any (fun b => b.id == n.board) = true)
    (h6 : ∀ u ∈ s.upvotes, s.notes.any (fun n => n.id == u.note) = true) :
    sweep now s = s := by
  have hmap : s.ghosts.map (ghostSoftStep now) = s.ghosts := map_eq_self_of_mem h1
  have hgh : sweepGhosts now s.ghosts = s.ghosts := by
    unfold sweepGhosts
    rw [hmap]
    exact List.filter_eq_self.mpr (fun g hg => by simp [h2 g hg])
  have hdead : deadGhostIds now s.ghosts = [] := by
    unfold deadGhostIds
    rw [hmap, List.filter_eq_nil_iff.mpr (fun g hg => by simp [h2 g hg])]
    rfl
  have hb1 : sweepBoards1 now s = s.boards := by
    unfold sweepBoards1
    rw [hdead]
    exact List.filter_eq_self.mpr (fun b _ => rfl)
  have hn1 : sweepNotes1 now s = s.notes := by
    unfold sweepNotes1
    rw [hdead, hb1]
    exact List.filter_eq_self.mpr (fun n hn => by simp [h5 n hn])
  have hu1 : sweepUpvotes1 now s = s.upvotes := by
    unfold sweepUpvotes1
    rw [hdead, hn1]
    exact List.filter_eq_self.mpr (fun u hu => by simp [h6 u hu])
  have hb2 : sweepBoards2 now s = s.boards := by
    unfold sweepBoards2
    rw [hb1, hgh]
    exact map_eq_self_of_mem h3
  have hdb : deadBoardIds now s = [] := by
    unfold deadBoardIds
    rw [hb2, List.filter_eq_nil_iff.mpr (fun b hb => by simp [h4 b hb])]
    rfl
  have hn2 : sweepNotes2 now s = s.notes := by
    unfold sweepNotes2
    rw [hn1, hdb]
    exact List.filter_eq_self.mpr (fun n _ => rfl)
  show (⟨sweepGhosts now s.ghosts,
    (sweepBoards2 now s).filter (fun b => !boardHardEligible now b),
    sweepNotes2 now s,
    (sweepUpvotes1 now s).filter (fun u => (sweepNotes2 now s).any (fun n => n.id == u.note))⟩
      : Store) = s
  rw [hgh, hb2, hn2, hu1,
    List.filter_eq_self.mpr (fun b hb => by simp [h4 b hb]),
    List.filter_eq_self.mpr (fun u hu => by simp [h6 u hu])]

/-- C8: the retention sweep is idempotent — running it a second time at
the same instant changes nothing: no surviving row is re-soft-deleted (its
soft-deletion timestamp is untouched) and no additional row is
hard-deleted. -/
theorem sweep_idem (now : Int) (s : Store) : sweep now (sweep now s) = sweep now s := by
  apply sweep_fix
  · intro g hg
    rcases List.mem_map.mp (List.mem_filter.mp hg).1 with ⟨g0, _, rfl⟩
    exact ghostSoftStep_idem now g0
  · intro g hg
    simpa using (List.mem_filter.mp hg).2
  · intro b hb
    rcases List.mem_map.mp (List.mem_filter.mp hb).1 with ⟨b0, _, rfl⟩
    exact boardSoftStep_idem _ now b0
  · intro b hb
    simpa using (List.mem_filter.mp hb).2
  · intro n hn
    have hnf := List.mem_filter.mp hn
    have hnf1 := List.mem_filter.mp hnf.1
    have hany : (sweepBoards1 now s).any (fun b => b.id == n.board) = true := by
      have h := hnf1.2
      simp only [Bool.and_eq_true] at h
      exact h.2
    rcases List.any_eq_true.mp hany with ⟨b, hbmem, hbid⟩
    have hb2 : boardSoftStep (sweepGhosts now s.ghosts) now b ∈ sweepBoards2 now s :=
      List.mem_map_of_mem _ hbmem
    have hbid2 : (boardSoftStep (sweepGhosts now s.ghosts) now b).id = b.id :=
      boardSoftStep_id _ _ _
    have hnb : b.id = n.board := by simpa using hbid
    have helig : boardHardEligible now (boardSoftStep (sweepGhosts now s.ghosts) now b)
        = false := by
      by_contra hc
      have he : boardHardEligible now (boardSoftStep (sweepGhosts now s.ghosts) now b)
          = true := by simpa using hc
      have hdbm : n.board ∈ deadBoardIds now s :=
        List.mem_map.mpr ⟨_, List.mem_filter.mpr ⟨hb2, he⟩, by rw [hbid2, hnb]⟩
      have := hnf.2
      simp [hdbm] at this
    refine List.any_eq_true.mpr ⟨boardSoftStep (sweepGhosts now s.ghosts) now b, ?_, ?_⟩
    · show _ ∈ (sweepBoards2 now s).filter (fun b => !boardHardEligible now b)
      exact List.mem_filter.mpr ⟨hb2, by simp [helig]⟩
    · rw [hbid2]
      exact hbid
  · intro u hu
    exact (List.mem_filter.mp hu).2

end Orbit
